import Mathlib

/-!
Shallow embedding of `src/supervisor/ingress.py` (class `Ingress`) and
`src/supervisor/plugins/manager.py` (class `PluginManager`) from the
ha-china/supervisor-cn repository, with theorems settling the testable
properties of the specification.

Modelling conventions:
* Timestamps are epoch seconds as `Int`; `utcnow()` becomes an explicit
  `now : Int` parameter; `timedelta(minutes=15)` is `900` seconds.
* Python dicts (the session table, the session-metadata table, the port
  table, the token index) are association lists `List (String × α)` in
  insertion order; `d[k]`/`d.get(k)` is `lookupKV`, `d[k] = v` is
  `setEntry`, `del d[k]` is `eraseKey`.
* `await`-ing an external collaborator (the `check_port` network probe,
  `save_data` persistence) is modelled by passing the collaborator in as
  a function and by counting the effect in the result.
* `random.randint(62000, 65500)` is modelled by consuming an externally
  supplied stream of draws (`List Nat`), each mapped into the inclusive
  range `[62000, 65500]` exactly as a uniform generator would be.
* A Python function that can raise is modelled with `Option`: `none`
  where the Python code would raise (or, for the unbounded allocation
  loop, fail to terminate within the supplied randomness).
-/

/-- 15 minutes, in seconds (`timedelta(minutes=15)`). -/
def fifteenMinutes : Int := 900

/-- Modelled from the spec: `utc_from_timestamp` lives in
`src/supervisor/utils/dt.py`, which is not part of the provided sources.
Per the spec it converts a stored epoch timestamp to a UTC datetime and
fails on a malformed value ("corruption, out-of-range value"); the failure
is modelled as `none`.  The range is that of Python `datetime`
(year 1 .. year 9999 in epoch seconds). -/
def utc_from_timestamp (ts : Int) : Option Int :=
  if -62135596800 ≤ ts ∧ ts ≤ 253402300799 then some ts else none

/-- `d.get(k)` / `d[k]` / `k in d` on a Python dict, over the association
list model: first (and, for key-unique lists, only) binding wins. -/
def lookupKV {α : Type} : List (String × α) → String → Option α
  | [], _ => none
  | (k, v) :: rest, key => if k = key then some v else lookupKV rest key

/-- `d[k] = v` on a Python dict: overwrite in place if the key is present,
append otherwise (Python dicts preserve insertion order). -/
def setEntry {α : Type} : List (String × α) → String → α → List (String × α)
  | [], key, v => [(key, v)]
  | (k, w) :: rest, key, v =>
      if k = key then (key, v) :: rest else (k, w) :: setEntry rest key v

/-- `del d[k]` on a Python dict. -/
def eraseKey {α : Type} (l : List (String × α)) (key : String) :
    List (String × α) :=
  l.filter (fun kv => kv.1 ≠ key)

/-- An installed add-on as seen by `Ingress` (`self.sys_addons.installed`):
its slug, its `with_ingress` capability flag, and its self-reported
`ingress_token` (`none` for a missing/empty token, which Python treats as
falsy). -/
structure AddonInfo where
  slug : String
  with_ingress : Bool
  ingress_token : Option String
  deriving Repr, DecidableEq

/-- The persistent + in-memory state of the `Ingress` class:
`self.tokens`, `self._data[ATTR_SESSION]`, `self._data[ATTR_SESSION_DATA]`
and `self._data[ATTR_PORTS]`.  Session metadata payloads are opaque and
modelled as `String`. -/
structure IngressState where
  tokens : List (String × String)
  sessions : List (String × Int)
  sessions_data : List (String × String)
  ports : List (String × Nat)
  deriving Repr, DecidableEq

/-- `Ingress.get_session_data`: return the stored metadata of a session,
or `none` if the session has none. -/
def get_session_data (st : IngressState) (session_id : String) :
    Option String :=
  lookupKV st.sessions_data session_id

/-- `Ingress.validate_session` (src/supervisor/ingress.py:136-158).
Returns the boolean result together with the state after the call.
`now` is the value of `utcnow()` during the call. -/
def validate_session (now : Int) (st : IngressState) (session : String) :
    Bool × IngressState :=
  match lookupKV st.sessions session with
  | none => (false, st)
  | some ts =>
    match utc_from_timestamp ts with
    | none =>
        (true,
         { st with sessions := setEntry st.sessions session (now + fifteenMinutes) })
    | some valid_until =>
        if valid_until < now then (false, st)
        else
          (true,
           { st with
               sessions := setEntry st.sessions session (valid_until + fifteenMinutes) })

/-- The single pass of `Ingress._cleanup_sessions`
(src/supervisor/ingress.py:94-108): walk the session table in order,
drop entries with an unparsable or past expiry, and collect the surviving
expiry entries together with the surviving sessions' metadata (when
present). -/
def cleanupPass (now : Int) (sessions_data : List (String × String)) :
    List (String × Int) → List (String × Int) × List (String × String)
  | [] => ([], [])
  | (session, valid) :: rest =>
    let tail := cleanupPass now sessions_data rest
    match utc_from_timestamp valid with
    | none => tail
    | some valid_dt =>
        if valid_dt < now then tail
        else
          match lookupKV sessions_data session with
          | some d => ((session, valid) :: tail.1, (session, d) :: tail.2)
          | none => ((session, valid) :: tail.1, tail.2)

/-- `Ingress._cleanup_sessions` (src/supervisor/ingress.py:88-114):
rebuild the expiry and metadata tables from the surviving sessions. -/
def cleanup_sessions (now : Int) (st : IngressState) : IngressState :=
  let pass := cleanupPass now st.sessions_data st.sessions
  { st with sessions := pass.1, sessions_data := pass.2 }

/-- The `Ingress.addons` property: installed add-ons with ingress. -/
def ingressAddons (installed : List AddonInfo) : List AddonInfo :=
  installed.filter (fun a => a.with_ingress)

/-- `Ingress._update_token_list` (src/supervisor/ingress.py:116-123):
clear and rebuild the token → slug map from the installed ingress
add-ons that report a token. -/
def update_token_list (installed : List AddonInfo) (st : IngressState) :
    IngressState :=
  { st with
      tokens :=
        (ingressAddons installed).filterMap
          (fun a => a.ingress_token.map (fun t => (t, a.slug))) }

/-- `Ingress.load` (src/supervisor/ingress.py:72-77): rebuild the token
index, then clean up sessions. -/
def ingressLoad (now : Int) (installed : List AddonInfo) (st : IngressState) :
    IngressState :=
  cleanup_sessions now (update_token_list installed st)

/-- `Ingress.reload` (src/supervisor/ingress.py:79-82): clean up
sessions, then rebuild the token index. -/
def ingressReload (now : Int) (installed : List AddonInfo) (st : IngressState) :
    IngressState :=
  update_token_list installed (cleanup_sessions now st)

/-- `random.randint(62000, 65500)`: map one draw of the external random
source into the inclusive candidate range. -/
def randintCandidate (r : Nat) : Nat := 62000 + r % 3501

/-- The allocation loop of `Ingress.get_dynamic_port`
(src/supervisor/ingress.py:165-171): repeatedly sample a candidate and
retry while it is already assigned (`port in self.ports.values()`) or
reported bound by the `check_port` network probe.  The loop is unbounded
in the source; it is driven here by the finite stream of random draws,
and returns the accepted port (`none` when every supplied draw was
rejected, i.e. the loop is still running) together with the number of
candidate attempts made. -/
def allocationLoop (bound : Nat → Bool) (ports : List (String × Nat)) :
    List Nat → Option Nat × Nat
  | [] => (none, 0)
  | r :: rest =>
    let port := randintCandidate r
    if (ports.map Prod.snd).contains port || bound port then
      let tail := allocationLoop bound ports rest
      (tail.1, tail.2 + 1)
    else (some port, 1)

/-- The observable outcome of one `get_dynamic_port` /
`del_dynamic_port` call: the returned port (`none` when the unbounded
allocation loop did not accept any supplied draw), the port table after
the call, the number of allocation attempts performed, and the number of
`save_data` persistence writes performed. -/
structure PortCall where
  port : Option Nat
  ports : List (String × Nat)
  attempts : Nat
  saves : Nat
  deriving Repr, DecidableEq

/-- `Ingress.get_dynamic_port` (src/supervisor/ingress.py:160-176):
return the existing assignment if present (no allocation, no
persistence); otherwise run the allocation loop, store the accepted
port and persist. -/
def get_dynamic_port (bound : Nat → Bool) (ports : List (String × Nat))
    (addon_slug : String) (draws : List Nat) : PortCall :=
  match lookupKV ports addon_slug with
  | some p => ⟨some p, ports, 0, 0⟩
  | none =>
    match allocationLoop bound ports draws with
    | (none, n) => ⟨none, ports, n, 0⟩
    | (some p, n) => ⟨some p, setEntry ports addon_slug p, n, 1⟩

/-- `Ingress.del_dynamic_port` (src/supervisor/ingress.py:178-184):
no-op if the slug has no assignment, otherwise remove it and persist. -/
def del_dynamic_port (ports : List (String × Nat)) (addon_slug : String) :
    PortCall :=
  match lookupKV ports addon_slug with
  | none => ⟨none, ports, 0, 0⟩
  | some p => ⟨some p, eraseKey ports addon_slug, 0, 1⟩

/-- The port-table states reachable from the empty table through
`get_dynamic_port` and `del_dynamic_port`, over any probe behaviour and
any random draws. -/
inductive ReachablePorts : List (String × Nat) → Prop
  | empty : ReachablePorts []
  | step_get (bound : Nat → Bool) (addon_slug : String) (draws : List Nat)
      {ps : List (String × Nat)} (h : ReachablePorts ps) :
      ReachablePorts (get_dynamic_port bound ps addon_slug draws).ports
  | step_del (addon_slug : String) {ps : List (String × Nat)}
      (h : ReachablePorts ps) :
      ReachablePorts (del_dynamic_port ps addon_slug).ports

/-- The port-table invariant of the spec: keys are distinct workloads,
no two distinct workloads hold the same port, and every assigned port
lies in [62000, 65500]. -/
def PortsInv (ports : List (String × Nat)) : Prop :=
  (ports.map Prod.fst).Nodup ∧ (ports.map Prod.snd).Nodup ∧
    ∀ kv ∈ ports, 62000 ≤ kv.2 ∧ kv.2 ≤ 65500

/-! ## Plugin manager (src/supervisor/plugins/manager.py) -/

/-- The outcome of one `plugin.update()` call: success, a `HassioError`
(the known failure category), or any other exception. -/
inductive UpdateOutcome where
  | ok : UpdateOutcome
  | hassioError (msg : String) : UpdateOutcome
  | otherError (msg : String) : UpdateOutcome
  deriving Repr, DecidableEq

/-- One plugin handle as the manager sees it: its fixed slug and the
behaviour its lifecycle calls would exhibit (`load_error = some e` means
`plugin.load()` raises `e`; likewise `stop_error` for `plugin.stop()`). -/
structure Plugin where
  slug : String
  load_error : Option String
  need_update : Bool
  update_outcome : UpdateOutcome
  stop_error : Option String
  deriving Repr, DecidableEq

/-- An issue record sent to the resolution collaborator
(`sys_resolution.create_issue`). -/
structure Issue where
  issue_type : String
  context : String
  reference : String
  suggestions : List String
  deriving Repr, DecidableEq

/-- The fatal-error issue created when a plugin's load raises
(src/supervisor/plugins/manager.py:77-82). -/
def fatalLoadIssue (slug : String) : Issue :=
  ⟨"fatal_error", "plugin", slug, ["execute_repair"]⟩

/-- The update-failed issue created when a plugin's update raises a
`HassioError` (src/supervisor/plugins/manager.py:109-114). -/
def updateFailedIssue (slug : String) : Issue :=
  ⟨"update_failed", "plugin", slug, ["execute_update"]⟩

/-- The observable trace of one `PluginManager.load()` call: the plugins
whose `load()` was attempted, in order; the plugins whose `update()` was
called, in order; the issues created; the exceptions forwarded to crash
telemetry. -/
structure LoadTrace where
  load_attempts : List String
  update_calls : List String
  issues : List Issue
  telemetry : List String
  deriving Repr, DecidableEq

/-- The first, sequential loop of `PluginManager.load`
(src/supervisor/plugins/manager.py:71-83): every plugin's load is
attempted; an exception is caught, turned into a fatal-error issue and
forwarded to telemetry, and the loop continues. -/
def loadPhase : List Plugin → List String × List Issue × List String
  | [] => ([], [], [])
  | p :: rest =>
    let tail := loadPhase rest
    match p.load_error with
    | none => (p.slug :: tail.1, tail.2.1, tail.2.2)
    | some err =>
        (p.slug :: tail.1, fatalLoadIssue p.slug :: tail.2.1, err :: tail.2.2)

/-- The second, sequential loop of `PluginManager.load`
(src/supervisor/plugins/manager.py:90-117): update each plugin whose
`need_update` flag is set; a `HassioError` becomes an update-failed
issue, any other exception is only forwarded to telemetry. -/
def updatePhase : List Plugin → List String × List Issue × List String
  | [] => ([], [], [])
  | p :: rest =>
    let tail := updatePhase rest
    if p.need_update then
      match p.update_outcome with
      | .ok => (p.slug :: tail.1, tail.2.1, tail.2.2)
      | .hassioError _ =>
          (p.slug :: tail.1, updateFailedIssue p.slug :: tail.2.1, tail.2.2)
      | .otherError err => (p.slug :: tail.1, tail.2.1, err :: tail.2.2)
    else tail

/-- `PluginManager.load` (src/supervisor/plugins/manager.py:69-117):
run the load loop over all plugins; return early if the supervisor
itself needs an update (`sys_supervisor.need_update`); otherwise run the
update loop. -/
def managerLoad (supervisor_need_update : Bool) (plugins : List Plugin) :
    LoadTrace :=
  let lp := loadPhase plugins
  if supervisor_need_update then ⟨lp.1, [], lp.2.1, lp.2.2⟩
  else
    let up := updatePhase plugins
    ⟨lp.1, up.1, lp.2.1 ++ up.2.1, lp.2.2 ++ up.2.2⟩

/-- The observable trace of one `PluginManager.shutdown()` call: the
plugins whose `stop()` was attempted, in order; the issues created
(always none); the exceptions forwarded to telemetry. -/
structure ShutdownTrace where
  stop_attempts : List String
  issues : List Issue
  telemetry : List String
  deriving Repr, DecidableEq

/-- The sequential stop loop of `PluginManager.shutdown`: every
plugin's stop is attempted; exceptions are caught and forwarded to
telemetry only. -/
def stopPhase : List Plugin → List String × List String
  | [] => ([], [])
  | p :: rest =>
    let tail := stopPhase rest
    match p.stop_error with
    | none => (p.slug :: tail.1, tail.2)
    | some err => (p.slug :: tail.1, err :: tail.2)

/-- `PluginManager.shutdown` (src/supervisor/plugins/manager.py:125-135):
stop every plugin whose slug is not `"observer"`, sequentially, catching
every exception; no issue is ever created. -/
def managerShutdown (plugins : List Plugin) : ShutdownTrace :=
  let sp := stopPhase (plugins.filter (fun p => p.slug ≠ "observer"))
  ⟨sp.1, [], sp.2⟩

/-- `PluginManager.all_plugins` (src/supervisor/plugins/manager.py:39-42):
the fixed, ordered plugin set {cli, dns, audio, observer, multicast},
with each handle's behaviour supplied by the collaborator plugins. -/
def allPlugins (cli dns audio observer multicast : Plugin) : List Plugin :=
  [{ cli with slug := "cli" }, { dns with slug := "dns" },
   { audio with slug := "audio" }, { observer with slug := "observer" },
   { multicast with slug := "multicast" }]

/-- A session survives `_cleanup_sessions` exactly when its stored expiry
parses and has not passed. -/
def SurvivesCleanup (now ts : Int) : Prop :=
  ∃ dt, utc_from_timestamp ts = some dt ∧ ¬ dt < now

/-! ### Concrete example inputs (used by witnesses) -/

/-- An example ingress state: session `"a"` expires at `1200`, session
`"b"` has an out-of-range (unparsable) stored expiry, session `"c"`
expired at `200`; `"a"` and `"c"` carry metadata. -/
def exampleIngressState : IngressState :=
  ⟨[], [("a", 1200), ("b", 500000000000), ("c", 200)],
   [("a", "client 1.2.3.4"), ("c", "client 5.6.7.8")], []⟩

/-- An example plugin whose every lifecycle call succeeds. -/
def okPlugin : Plugin := ⟨"", none, false, .ok, none⟩

/-- An example plugin whose `load()` raises. -/
def loadFailPlugin : Plugin := ⟨"", some "dns load failed", false, .ok, none⟩

/-- An example plugin whose `stop()` raises. -/
def stopFailPlugin : Plugin := ⟨"", none, false, .ok, some "dns stop failed"⟩

/-! ## Association-list lemmas -/

theorem lookupKV_setEntry_self {α : Type} (l : List (String × α)) (k : String)
    (v : α) : lookupKV (setEntry l k v) k = some v := by
  induction l with
  | nil => simp [setEntry, lookupKV]
  | cons kv rest ih =>
    obtain ⟨k0, w⟩ := kv
    by_cases h : k0 = k <;> simp [setEntry, lookupKV, h, ih]

theorem lookupKV_setEntry_ne {α : Type} (l : List (String × α)) (k k' : String)
    (v : α) (h : k' ≠ k) : lookupKV (setEntry l k v) k' = lookupKV l k' := by
  have hne : ¬ k = k' := fun hh => h hh.symm
  induction l with
  | nil => simp [setEntry, lookupKV, hne]
  | cons kv rest ih =>
    obtain ⟨k0, w⟩ := kv
    by_cases h0 : k0 = k
    · subst h0
      simp [setEntry, lookupKV, hne]
    · simp only [setEntry, if_neg h0, lookupKV]
      by_cases h1 : k0 = k' <;> simp [h1, ih]

theorem lookupKV_eq_none_iff {α : Type} (l : List (String × α)) (k : String) :
    lookupKV l k = none ↔ k ∉ l.map Prod.fst := by
  induction l with
  | nil => simp [lookupKV]
  | cons kv rest ih =>
    obtain ⟨k0, w⟩ := kv
    by_cases h : k0 = k
    · subst h
      simp [lookupKV]
    · have h2 : ¬ k = k0 := fun hh => h hh.symm
      simp [lookupKV, h, h2, ih]

theorem mem_of_lookupKV_eq_some {α : Type} (l : List (String × α)) (k : String)
    (v : α) (h : lookupKV l k = some v) : (k, v) ∈ l := by
  induction l with
  | nil => simp [lookupKV] at h
  | cons kv rest ih =>
    obtain ⟨k0, w⟩ := kv
    simp only [lookupKV] at h
    split at h
    · rename_i heq
      injection h with h1
      subst h1
      subst heq
      exact List.mem_cons_self _ _
    · exact List.mem_cons_of_mem _ (ih h)

theorem lookupKV_eq_some_of_mem_nodup {α : Type} (l : List (String × α))
    (k : String) (v : α) (hnd : (l.map Prod.fst).Nodup) (h : (k, v) ∈ l) :
    lookupKV l k = some v := by
  induction l with
  | nil => simp at h
  | cons kv rest ih =>
    obtain ⟨k0, w⟩ := kv
    simp only [List.map_cons, List.nodup_cons] at hnd
    rcases List.mem_cons.mp h with h1 | h1
    · obtain ⟨hk, hv⟩ := Prod.mk.injEq .. ▸ h1
      simp [lookupKV, hk.symm, hv]
    · have hk0 : k0 ≠ k := by
        intro he
        exact hnd.1 (he ▸ (List.mem_map.mpr ⟨(k, v), h1, rfl⟩))
      simp only [lookupKV, if_neg hk0]
      exact ih hnd.2 h1

theorem setEntry_of_not_mem {α : Type} (l : List (String × α)) (k : String)
    (v : α) (h : k ∉ l.map Prod.fst) : setEntry l k v = l ++ [(k, v)] := by
  induction l with
  | nil => simp [setEntry]
  | cons kv rest ih =>
    obtain ⟨k0, w⟩ := kv
    simp only [List.map_cons, List.mem_cons, not_or] at h
    have h1 : ¬ k0 = k := fun hh => h.1 hh.symm
    simp [setEntry, h1, ih h.2]

/-! ## C1: validate_session -/

/-- **C1.** `validate_session`: an unknown id yields `false`; a present
id with an unparsable stored expiry has its expiry reset to
`now + 15 minutes` and yields `true`; a past expiry yields `false`;
otherwise the session's expiry becomes the previous stored expiry plus
15 minutes (not `now` plus 15 minutes) and the call yields `true`. -/
theorem c1_validate_session (now : Int) (st : IngressState) (session : String) :
    (lookupKV st.sessions session = none →
      validate_session now st session = (false, st)) ∧
    (∀ ts, lookupKV st.sessions session = some ts →
      utc_from_timestamp ts = none →
      (validate_session now st session).1 = true ∧
      lookupKV (validate_session now st session).2.sessions session
        = some (now + fifteenMinutes)) ∧
    (∀ ts dt, lookupKV st.sessions session = some ts →
      utc_from_timestamp ts = some dt → dt < now →
      validate_session now st session = (false, st)) ∧
    (∀ ts dt, lookupKV st.sessions session = some ts →
      utc_from_timestamp ts = some dt → ¬ dt < now →
      (validate_session now st session).1 = true ∧
      lookupKV (validate_session now st session).2.sessions session
        = some (dt + fifteenMinutes)) := by
  refine ⟨fun h => ?_, fun ts hts hparse => ?_, fun ts dt hts hparse hlt => ?_,
    fun ts dt hts hparse hlt => ?_⟩
  · simp [validate_session, h]
  · simp [validate_session, hts, hparse, lookupKV_setEntry_self]
  · simp [validate_session, hts, hparse, hlt]
  · simp [validate_session, hts, hparse, hlt, lookupKV_setEntry_self]

/-- Witness for C1: all four branches at concrete inputs
(`now = 1000`; sessions `"a" ↦ 1200` valid, `"b"` unparsable,
`"c" ↦ 200` expired, `"z"` unknown). -/
theorem c1_validate_session_witness :
    validate_session 1000 exampleIngressState "z" = (false, exampleIngressState) ∧
    ((validate_session 1000 exampleIngressState "b").1 = true ∧
      lookupKV (validate_session 1000 exampleIngressState "b").2.sessions "b"
        = some 1900) ∧
    validate_session 1000 exampleIngressState "c" = (false, exampleIngressState) ∧
    ((validate_session 1000 exampleIngressState "a").1 = true ∧
      lookupKV (validate_session 1000 exampleIngressState "a").2.sessions "a"
        = some 2100) := by
  refine ⟨(c1_validate_session 1000 exampleIngressState "z").1 (by decide),
    (c1_validate_session 1000 exampleIngressState "b").2.1 500000000000
      (by decide) (by decide),
    (c1_validate_session 1000 exampleIngressState "c").2.2.1 200 200
      (by decide) (by decide) (by decide),
    (c1_validate_session 1000 exampleIngressState "a").2.2.2 1200 1200
      (by decide) (by decide) (by decide)⟩

/-! ## C4: reload equals load -/

/-- **C4.** `reload()` runs the same two steps as `load()` (the token
rebuild and the session cleanup touch disjoint parts of the state), so
from any starting state both calls produce the identical ingress state. -/
theorem c4_reload_equals_load (now : Int) (installed : List AddonInfo)
    (st : IngressState) :
    ingressReload now installed st = ingressLoad now installed st := rfl

/-! ## Cleanup lemmas -/

theorem cleanupPass_mem_fst (now : Int) (sd : List (String × String))
    (l : List (String × Int)) (s : String) (ts : Int) :
    (s, ts) ∈ (cleanupPass now sd l).1 ↔
      ((s, ts) ∈ l ∧ SurvivesCleanup now ts) := by
  induction l with
  | nil => simp [cleanupPass]
  | cons kv rest ih =>
    obtain ⟨a, v⟩ := kv
    simp only [cleanupPass]
    split
    · rename_i hv
      rw [ih]
      constructor
      · exact fun hx => ⟨List.mem_cons_of_mem _ hx.1, hx.2⟩
      · rintro ⟨h1, h2⟩
        rcases List.mem_cons.mp h1 with h3 | h3
        · obtain ⟨dt, hdt, _⟩ := h2
          cases h3
          rw [hv] at hdt
          cases hdt
        · exact ⟨h3, h2⟩
    · rename_i dt hv
      split
      · rename_i hlt
        rw [ih]
        constructor
        · exact fun hx => ⟨List.mem_cons_of_mem _ hx.1, hx.2⟩
        · rintro ⟨h1, h2⟩
          rcases List.mem_cons.mp h1 with h3 | h3
          · obtain ⟨dt2, hdt2, hnl⟩ := h2
            cases h3
            rw [hv] at hdt2
            cases hdt2
            exact absurd hlt hnl
          · exact ⟨h3, h2⟩
      · rename_i hnlt
        have hmain : ∀ tl : List (String × Int),
            (s, ts) ∈ (a, v) :: tl ↔
              ((s, ts) = (a, v) ∨ (s, ts) ∈ tl) := by
          intro tl
          exact List.mem_cons
        split
        · rw [List.mem_cons, ih]
          constructor
          · rintro (h1 | ⟨h2, h3⟩)
            · cases h1
              exact ⟨List.mem_cons_self _ _, dt, hv, hnlt⟩
            · exact ⟨List.mem_cons_of_mem _ h2, h3⟩
          · rintro ⟨h1, h2⟩
            rcases List.mem_cons.mp h1 with h3 | h3
            · exact Or.inl h3
            · exact Or.inr ⟨h3, h2⟩
        · rw [List.mem_cons, ih]
          constructor
          · rintro (h1 | ⟨h2, h3⟩)
            · cases h1
              exact ⟨List.mem_cons_self _ _, dt, hv, hnlt⟩
            · exact ⟨List.mem_cons_of_mem _ h2, h3⟩
          · rintro ⟨h1, h2⟩
            rcases List.mem_cons.mp h1 with h3 | h3
            · exact Or.inl h3
            · exact Or.inr ⟨h3, h2⟩

theorem cleanupPass_mem_snd (now : Int) (sd : List (String × String))
    (l : List (String × Int)) (s : String) (d : String) :
    (s, d) ∈ (cleanupPass now sd l).2 ↔
      (lookupKV sd s = some d ∧
        ∃ ts, (s, ts) ∈ l ∧ SurvivesCleanup now ts) := by
  induction l with
  | nil => simp [cleanupPass]
  | cons kv rest ih =>
    obtain ⟨a, v⟩ := kv
    simp only [cleanupPass]
    split
    · rename_i hv
      rw [ih]
      constructor
      · rintro ⟨h1, ts, h2, h3⟩
        exact ⟨h1, ts, List.mem_cons_of_mem _ h2, h3⟩
      · rintro ⟨h1, ts, h2, h3⟩
        rcases List.mem_cons.mp h2 with h4 | h4
        · obtain ⟨dt, hdt, _⟩ := h3
          cases h4
          rw [hv] at hdt
          cases hdt
        · exact ⟨h1, ts, h4, h3⟩
    · rename_i dt hv
      split
      · rename_i hlt
        rw [ih]
        constructor
        · rintro ⟨h1, ts, h2, h3⟩
          exact ⟨h1, ts, List.mem_cons_of_mem _ h2, h3⟩
        · rintro ⟨h1, ts, h2, h3⟩
          rcases List.mem_cons.mp h2 with h4 | h4
          · obtain ⟨dt2, hdt2, hnl⟩ := h3
            cases h4
            rw [hv] at hdt2
            cases hdt2
            exact absurd hlt hnl
          · exact ⟨h1, ts, h4, h3⟩
      · rename_i hnlt
        split
        · rename_i d0 hd0
          rw [List.mem_cons, ih]
          constructor
          · rintro (h1 | ⟨h2, ts, h3, h4⟩)
            · cases h1
              exact ⟨hd0, v, List.mem_cons_self _ _, dt, hv, hnlt⟩
            · exact ⟨h2, ts, List.mem_cons_of_mem _ h3, h4⟩
          · rintro ⟨h1, ts, h2, h3⟩
            rcases List.mem_cons.mp h2 with h4 | h4
            · obtain ⟨hs, _⟩ := Prod.mk.injEq .. ▸ h4
              subst hs
              rw [hd0] at h1
              injection h1 with h1
              exact Or.inl (by rw [h1])
            · exact Or.inr ⟨h1, ts, h4, h3⟩
        · rename_i hd0
          rw [ih]
          constructor
          · rintro ⟨h1, ts, h2, h3⟩
            exact ⟨h1, ts, List.mem_cons_of_mem _ h2, h3⟩
          · rintro ⟨h1, ts, h2, h3⟩
            rcases List.mem_cons.mp h2 with h4 | h4
            · obtain ⟨hs, _⟩ := Prod.mk.injEq .. ▸ h4
              subst hs
              rw [hd0] at h1
              cases h1
            · exact ⟨h1, ts, h4, h3⟩

/-! ## C2: _cleanup_sessions -/

/-- Counterexample to C2 as stated: with one session `"s1"` whose expiry
`2000` is still in the future at `now = 1000` and no stored metadata,
`_cleanup_sessions` keeps `"s1"` in the expiry table but the rewritten
metadata table does not contain `"s1"` — so the metadata table does not
"contain exactly the surviving session ids". -/
theorem c2_counterexample :
    "s1" ∈ ((cleanup_sessions 1000
        ⟨[], [("s1", 2000)], [], []⟩).sessions.map Prod.fst) ∧
    "s1" ∉ ((cleanup_sessions 1000
        ⟨[], [("s1", 2000)], [], []⟩).sessions_data.map Prod.fst) := by
  decide

/-- **C2 (amended).** `_cleanup_sessions` keeps in the expiry table
exactly the sessions whose expiry parses and has not passed (each with
its expiry value unchanged), and rewrites the metadata table to contain
exactly those surviving session ids that had stored metadata, each with
its stored metadata unchanged. -/
theorem c2_cleanup_exact (now : Int) (st : IngressState) :
    (∀ s ts, (s, ts) ∈ (cleanup_sessions now st).sessions ↔
      ((s, ts) ∈ st.sessions ∧ SurvivesCleanup now ts)) ∧
    (∀ s d, (s, d) ∈ (cleanup_sessions now st).sessions_data ↔
      (lookupKV st.sessions_data s = some d ∧
        ∃ ts, (s, ts) ∈ st.sessions ∧ SurvivesCleanup now ts)) :=
  ⟨fun s ts => cleanupPass_mem_fst now st.sessions_data st.sessions s ts,
   fun s d => cleanupPass_mem_snd now st.sessions_data st.sessions s d⟩

/-- Witness for C2: on the example state at `now = 1000`, session `"a"`
(expiry `1200`, metadata present) survives in both tables. -/
theorem c2_cleanup_exact_witness :
    ("a", (1200 : Int)) ∈ (cleanup_sessions 1000 exampleIngressState).sessions ∧
    ("a", "client 1.2.3.4")
      ∈ (cleanup_sessions 1000 exampleIngressState).sessions_data := by
  refine ⟨((c2_cleanup_exact 1000 exampleIngressState).1 "a" 1200).mpr
      ⟨by decide, 1200, by decide, by decide⟩,
    ((c2_cleanup_exact 1000 exampleIngressState).2 "a" "client 1.2.3.4").mpr
      ⟨by decide, 1200, by decide, 1200, by decide, by decide⟩⟩

/-! ## C10: expired session leaves state unchanged -/

/-- **C10.** For a session whose stored expiry parses but has passed,
`validate_session` returns `false` and leaves all state unchanged: the
session stays in the expiry table with its old expiry, and
`get_session_data` still returns the stored metadata — while the next
`_cleanup_sessions` pass removes it from both tables. -/
theorem c10_expired_session_frame (now : Int) (st : IngressState)
    (session : String) (ts dt : Int)
    (hnd : (st.sessions.map Prod.fst).Nodup)
    (hts : lookupKV st.sessions session = some ts)
    (hparse : utc_from_timestamp ts = some dt) (hpast : dt < now) :
    validate_session now st session = (false, st) ∧
    lookupKV (validate_session now st session).2.sessions session = some ts ∧
    get_session_data (validate_session now st session).2 session
      = get_session_data st session ∧
    lookupKV (cleanup_sessions now st).sessions session = none ∧
    get_session_data (cleanup_sessions now st) session = none := by
  have hval : validate_session now st session = (false, st) := by
    simp [validate_session, hts, hparse, hpast]
  have hnosurv : ¬ SurvivesCleanup now ts := by
    rintro ⟨dt2, hdt2, hnl⟩
    rw [hparse] at hdt2
    injection hdt2 with hdt2
    exact hnl (hdt2 ▸ hpast)
  refine ⟨hval, by rw [hval]; exact hts, by rw [hval], ?_, ?_⟩
  · rw [lookupKV_eq_none_iff]
    intro hmem
    obtain ⟨⟨s2, ts2⟩, hmem2, hfst⟩ := List.mem_map.mp hmem
    have hs : s2 = session := hfst
    subst hs
    have h3 := (cleanupPass_mem_fst now st.sessions_data st.sessions s2 ts2).mp hmem2
    have h4 := lookupKV_eq_some_of_mem_nodup st.sessions s2 ts2 hnd h3.1
    rw [hts] at h4
    injection h4 with h4
    exact hnosurv (h4 ▸ h3.2)
  · rw [get_session_data, lookupKV_eq_none_iff]
    intro hmem
    obtain ⟨⟨s2, d2⟩, hmem2, hfst⟩ := List.mem_map.mp hmem
    have hs : s2 = session := hfst
    subst hs
    have h3 := (cleanupPass_mem_snd now st.sessions_data st.sessions s2 d2).mp hmem2
    obtain ⟨_, ts2, h4, h5⟩ := h3
    have h6 := lookupKV_eq_some_of_mem_nodup st.sessions s2 ts2 hnd h4
    rw [hts] at h6
    injection h6 with h6
    exact hnosurv (h6 ▸ h5)

/-- Witness for C10: session `"c"` of the example state (expiry `200`,
metadata present) at `now = 1000`. -/
theorem c10_expired_session_frame_witness :
    validate_session 1000 exampleIngressState "c" = (false, exampleIngressState) ∧
    lookupKV (validate_session 1000 exampleIngressState "c").2.sessions "c"
      = some 200 ∧
    get_session_data (validate_session 1000 exampleIngressState "c").2 "c"
      = get_session_data exampleIngressState "c" ∧
    lookupKV (cleanup_sessions 1000 exampleIngressState).sessions "c" = none ∧
    get_session_data (cleanup_sessions 1000 exampleIngressState) "c" = none :=
  c10_expired_session_frame 1000 exampleIngressState "c" 200 200
    (by decide) (by decide) (by decide) (by decide)

/-! ## Port-allocation lemmas -/

theorem allocationLoop_accepts (bound : Nat → Bool) (ports : List (String × Nat))
    (draws : List Nat) (p : Nat)
    (h : (allocationLoop bound ports draws).1 = some p) :
    p ∉ ports.map Prod.snd ∧ bound p = false ∧ 62000 ≤ p ∧ p ≤ 65500 := by
  induction draws with
  | nil => simp [allocationLoop] at h
  | cons r rest ih =>
    simp only [allocationLoop] at h
    split at h
    · exact ih h
    · rename_i hcond
      simp only [Bool.or_eq_true, not_or, Bool.not_eq_true] at hcond
      injection h with h
      subst h
      refine ⟨by simpa using hcond.1, hcond.2, Nat.le_add_right _ _, ?_⟩
      have hm : r % 3501 < 3501 := Nat.mod_lt r (by norm_num)
      simp only [randintCandidate]
      omega

theorem allocationLoop_all_bound (ports : List (String × Nat))
    (draws : List Nat) :
    allocationLoop (fun _ => true) ports draws = (none, draws.length) := by
  induction draws with
  | nil => rfl
  | cons r rest ih => simp [allocationLoop, ih]

theorem get_dynamic_port_lookup (bound : Nat → Bool)
    (ports : List (String × Nat)) (slug : String) (draws : List Nat) (p : Nat)
    (h : (get_dynamic_port bound ports slug draws).port = some p) :
    lookupKV (get_dynamic_port bound ports slug draws).ports slug = some p := by
  cases hl : lookupKV ports slug with
  | some q =>
    simp only [get_dynamic_port, hl] at h ⊢
    exact h
  | none =>
    cases ha : allocationLoop bound ports draws with
    | mk o n =>
      cases o with
      | none => simp [get_dynamic_port, hl, ha] at h
      | some q =>
        simp only [get_dynamic_port, hl, ha] at h ⊢
        injection h with h
        rw [← h]
        exact lookupKV_setEntry_self ports slug q

theorem portsInv_nil : PortsInv [] := ⟨List.nodup_nil, List.nodup_nil, by simp⟩

theorem portsInv_get (bound : Nat → Bool) (ports : List (String × Nat))
    (slug : String) (draws : List Nat) (h : PortsInv ports) :
    PortsInv (get_dynamic_port bound ports slug draws).ports := by
  cases hl : lookupKV ports slug with
  | some q =>
    have he : (get_dynamic_port bound ports slug draws).ports = ports := by
      simp [get_dynamic_port, hl]
    rw [he]
    exact h
  | none =>
    cases ha : allocationLoop bound ports draws with
    | mk o n =>
      cases o with
      | none =>
        have he : (get_dynamic_port bound ports slug draws).ports = ports := by
          simp [get_dynamic_port, hl, ha]
        rw [he]
        exact h
      | some p =>
        have he : (get_dynamic_port bound ports slug draws).ports
            = setEntry ports slug p := by
          simp [get_dynamic_port, hl, ha]
        rw [he]
        have hnotmem : slug ∉ ports.map Prod.fst :=
          (lookupKV_eq_none_iff ports slug).mp hl
        rw [setEntry_of_not_mem ports slug p hnotmem]
        obtain ⟨h1, h2, h3, h4⟩ :=
          allocationLoop_accepts bound ports draws p (by rw [ha])
        obtain ⟨hk, hv, hr⟩ := h
        refine ⟨?_, ?_, ?_⟩
        · simp [List.nodup_append, hk, hnotmem]
        · simp [List.nodup_append, hv, h1]
        · intro kv hkv
          rcases List.mem_append.mp hkv with hkv | hkv
          · exact hr kv hkv
          · simp only [List.mem_singleton] at hkv
            subst hkv
            exact ⟨h3, h4⟩

theorem portsInv_del (ports : List (String × Nat)) (slug : String)
    (h : PortsInv ports) : PortsInv (del_dynamic_port ports slug).ports := by
  obtain ⟨hk, hv, hr⟩ := h
  cases hl : lookupKV ports slug with
  | none =>
    have he : (del_dynamic_port ports slug).ports = ports := by
      simp [del_dynamic_port, hl]
    rw [he]
    exact ⟨hk, hv, hr⟩
  | some q =>
    have he : (del_dynamic_port ports slug).ports = eraseKey ports slug := by
      simp [del_dynamic_port, hl]
    rw [he]
    have hsub : List.Sublist (eraseKey ports slug) ports := List.filter_sublist _
    exact ⟨(hsub.map Prod.fst).nodup hk, (hsub.map Prod.snd).nodup hv,
      fun kv hkv => hr kv (hsub.subset hkv)⟩

theorem reachable_portsInv (ports : List (String × Nat))
    (h : ReachablePorts ports) : PortsInv ports := by
  induction h with
  | empty => exact portsInv_nil
  | step_get bound slug draws h ih => exact portsInv_get bound _ slug draws ih
  | step_del slug h ih => exact portsInv_del _ slug ih

/-! ## C3: no retry cap in get_dynamic_port -/

/-- **C3 (code bug).** When every sampled candidate collides (here: the
network probe reports every port bound), `get_dynamic_port` on a
workload with no existing assignment never fails: however many
candidates the unbounded loop samples, it has produced neither a port
nor an error, made no assignment and no persistence write — the loop
simply keeps running.  The spec requires failing loudly with a
resource-exhaustion error after a bounded number of attempts; the
source has no retry cap and no such error path. -/
theorem c3_no_retry_cap (draws : List Nat) :
    get_dynamic_port (fun _ => true) [] "addon_x" draws
      = ⟨none, [], draws.length, 0⟩ := by
  simp [get_dynamic_port, lookupKV, allocationLoop_all_bound]

/-! ## C5: port-table invariants -/

/-- **C5.** Every port-table state reachable through `get_dynamic_port`
and `del_dynamic_port` satisfies the invariant (distinct workloads,
pairwise-distinct ports, all in [62000, 65500]); `get_dynamic_port`
only accepts a candidate that collides with neither an assigned port
nor a port the probe reports bound (and the candidate is in range); and
`del_dynamic_port` preserves the invariant. -/
theorem c5_port_invariants :
    (∀ ports, ReachablePorts ports → PortsInv ports) ∧
    (∀ (bound : Nat → Bool) (ports : List (String × Nat)) (slug : String)
        (draws : List Nat) (p : Nat),
      lookupKV ports slug = none →
      (get_dynamic_port bound ports slug draws).port = some p →
      p ∉ ports.map Prod.snd ∧ bound p = false ∧ 62000 ≤ p ∧ p ≤ 65500) ∧
    (∀ ports slug, PortsInv ports →
      PortsInv (del_dynamic_port ports slug).ports) := by
  refine ⟨reachable_portsInv, ?_, fun ports slug h => portsInv_del ports slug h⟩
  intro bound ports slug draws p hl hp
  have ha : (allocationLoop bound ports draws).1 = some p := by
    cases hx : allocationLoop bound ports draws with
    | mk o n =>
      cases o with
      | none => simp [get_dynamic_port, hl, hx] at hp
      | some q =>
        simp only [get_dynamic_port, hl, hx] at hp
        injection hp with hp
        simp [hp]
  exact allocationLoop_accepts bound ports draws p ha

/-- Witness for C5: the invariant at the reachable one-entry table
obtained by allocating for `"addon_x"` with an all-free probe;
acceptance of candidate `62000` against a table holding `63000`; and
preservation under deleting the only assignment. -/
theorem c5_port_invariants_witness :
    PortsInv [("addon_x", 62000)] ∧
    ((62000 : Nat) ∉ ([("other", 63000)] : List (String × Nat)).map Prod.snd ∧
      (fun _ => false : Nat → Bool) 62000 = false ∧
      62000 ≤ 62000 ∧ 62000 ≤ 65500) ∧
    PortsInv (del_dynamic_port [("addon_x", 62000)] "addon_x").ports := by
  refine ⟨c5_port_invariants.1 [("addon_x", 62000)] ?_,
    c5_port_invariants.2.1 (fun _ => false) [("other", 63000)] "addon_x" [0]
      62000 (by decide) (by decide),
    c5_port_invariants.2.2 [("addon_x", 62000)] "addon_x"
      ⟨by decide, by decide, by decide⟩⟩
  have h0 : (get_dynamic_port (fun _ => false) [] "addon_x" [0]).ports
      = [("addon_x", 62000)] := by decide
  exact h0 ▸ ReachablePorts.step_get (fun _ => false) "addon_x" [0]
    ReachablePorts.empty

/-! ## C8: get_dynamic_port idempotence -/

/-- **C8.** If `get_dynamic_port(w)` returns a port, an immediately
repeated call with no intervening `del_dynamic_port(w)` returns the
identical port, leaves the table unchanged, and performs zero
allocation attempts (hence no probe) and zero persistence writes —
whatever the second call's probe or randomness would have been. -/
theorem c8_get_dynamic_port_idempotent (bound bound2 : Nat → Bool)
    (ports : List (String × Nat)) (slug : String) (draws draws2 : List Nat)
    (p : Nat) (h : (get_dynamic_port bound ports slug draws).port = some p) :
    get_dynamic_port bound2 (get_dynamic_port bound ports slug draws).ports
        slug draws2
      = ⟨some p, (get_dynamic_port bound ports slug draws).ports, 0, 0⟩ := by
  have hl := get_dynamic_port_lookup bound ports slug draws p h
  generalize hg : (get_dynamic_port bound ports slug draws).ports = ps at hl ⊢
  simp [get_dynamic_port, hl]

/-- Witness for C8: first call allocates port `62000` for `"addon_x"`
from an empty table; the repeated call (even with a probe reporting
everything bound) returns `62000` with zero attempts and zero writes. -/
theorem c8_get_dynamic_port_idempotent_witness :
    get_dynamic_port (fun _ => true)
        (get_dynamic_port (fun _ => false) [] "addon_x" [0]).ports "addon_x" [7]
      = ⟨some 62000,
         (get_dynamic_port (fun _ => false) [] "addon_x" [0]).ports, 0, 0⟩ :=
  c8_get_dynamic_port_idempotent (fun _ => false) (fun _ => true) [] "addon_x"
    [0] [7] 62000 (by decide)

/-! ## Plugin-manager lemmas -/

theorem loadPhase_attempts (ps : List Plugin) :
    (loadPhase ps).1 = ps.map Plugin.slug := by
  induction ps with
  | nil => rfl
  | cons p rest ih => cases h : p.load_error <;> simp [loadPhase, h, ih]

theorem loadPhase_telemetry_mem (ps : List Plugin) (p : Plugin) (err : String)
    (hp : p ∈ ps) (he : p.load_error = some err) :
    err ∈ (loadPhase ps).2.2 := by
  induction ps with
  | nil => simp at hp
  | cons q rest ih =>
    rcases List.mem_cons.mp hp with h | h
    · subst h
      simp [loadPhase, he]
    · cases hq : q.load_error <;> simp [loadPhase, hq, ih h]

theorem loadPhase_fatal_filter_nil (s : String) (ps : List Plugin)
    (h : s ∉ ps.map Plugin.slug) :
    (loadPhase ps).2.1.filter
        (fun i => i.issue_type == "fatal_error" && i.reference == s) = [] := by
  induction ps with
  | nil => rfl
  | cons q rest ih =>
    simp only [List.map_cons, List.mem_cons, not_or] at h
    cases hq : q.load_error with
    | none => simpa [loadPhase, hq] using ih h.2
    | some e =>
      have hne : ¬ q.slug = s := fun hh => h.1 hh.symm
      simp [loadPhase, hq, List.filter_cons, fatalLoadIssue, hne, ih h.2]

theorem updatePhase_fatal_filter_nil (s : String) (ps : List Plugin) :
    (updatePhase ps).2.1.filter
        (fun i => i.issue_type == "fatal_error" && i.reference == s) = [] := by
  induction ps with
  | nil => rfl
  | cons q rest ih =>
    cases hn : q.need_update with
    | false => simpa [updatePhase, hn] using ih
    | true =>
      cases ho : q.update_outcome with
      | ok => simpa [updatePhase, hn, ho] using ih
      | hassioError m =>
          simp [updatePhase, hn, ho, List.filter_cons, updateFailedIssue, ih]
      | otherError m => simpa [updatePhase, hn, ho] using ih

theorem loadPhase_fatal_filter (ps : List Plugin)
    (hnd : (ps.map Plugin.slug).Nodup) (p : Plugin) (hp : p ∈ ps)
    (err : String) (he : p.load_error = some err) :
    (loadPhase ps).2.1.filter
        (fun i => i.issue_type == "fatal_error" && i.reference == p.slug)
      = [fatalLoadIssue p.slug] := by
  induction ps with
  | nil => simp at hp
  | cons q rest ih =>
    simp only [List.map_cons, List.nodup_cons] at hnd
    rcases List.mem_cons.mp hp with h | h
    · subst h
      simp [loadPhase, he, List.filter_cons, fatalLoadIssue,
        loadPhase_fatal_filter_nil p.slug rest hnd.1]
    · have hps : p.slug ∈ rest.map Plugin.slug :=
        List.mem_map.mpr ⟨p, h, rfl⟩
      have hne : ¬ q.slug = p.slug := fun hh => hnd.1 (hh ▸ hps)
      cases hq : q.load_error with
      | none => simpa [loadPhase, hq] using ih hnd.2 h
      | some e =>
          simp [loadPhase, hq, List.filter_cons, fatalLoadIssue, hne,
            ih hnd.2 h]

theorem updatePhase_calls (ps : List Plugin) :
    (updatePhase ps).1 = (ps.filter (fun p => p.need_update)).map Plugin.slug := by
  induction ps with
  | nil => rfl
  | cons q rest ih =>
    cases hn : q.need_update with
    | false => simp [updatePhase, hn, List.filter_cons, ih]
    | true =>
      cases ho : q.update_outcome <;>
        simp [updatePhase, hn, ho, List.filter_cons, ih]

theorem stopPhase_attempts (ps : List Plugin) :
    (stopPhase ps).1 = ps.map Plugin.slug := by
  induction ps with
  | nil => rfl
  | cons p rest ih => cases h : p.stop_error <;> simp [stopPhase, h, ih]

theorem stopPhase_telemetry_mem (ps : List Plugin) (p : Plugin) (err : String)
    (hp : p ∈ ps) (he : p.stop_error = some err) :
    err ∈ (stopPhase ps).2 := by
  induction ps with
  | nil => simp at hp
  | cons q rest ih =>
    rcases List.mem_cons.mp hp with h | h
    · subst h
      simp [stopPhase, he]
    · cases hq : q.stop_error <;> simp [stopPhase, hq, ih h]

/-! ## C6: load failure isolation -/

/-- **C6.** During `PluginManager.load()`, a plugin whose `load()`
raises does not stop the loop: every plugin in the set still gets its
load attempt; for each failing plugin exactly one fatal-error issue
referencing its slug with suggestion "execute repair" is created, and
the raised exception is forwarded to crash telemetry. -/
theorem c6_load_isolation (sup : Bool) (ps : List Plugin)
    (hnd : (ps.map Plugin.slug).Nodup) (p : Plugin) (hp : p ∈ ps)
    (err : String) (he : p.load_error = some err) :
    (managerLoad sup ps).load_attempts = ps.map Plugin.slug ∧
    (managerLoad sup ps).issues.filter
        (fun i => i.issue_type == "fatal_error" && i.reference == p.slug)
      = [fatalLoadIssue p.slug] ∧
    err ∈ (managerLoad sup ps).telemetry := by
  cases sup with
  | true =>
    refine ⟨?_, ?_, ?_⟩
    · simpa [managerLoad] using loadPhase_attempts ps
    · simpa [managerLoad] using loadPhase_fatal_filter ps hnd p hp err he
    · simpa [managerLoad] using loadPhase_telemetry_mem ps p err hp he
  | false =>
    refine ⟨?_, ?_, ?_⟩
    · simpa [managerLoad] using loadPhase_attempts ps
    · simp only [managerLoad, if_neg Bool.false_ne_true, List.filter_append]
      rw [loadPhase_fatal_filter ps hnd p hp err he,
        updatePhase_fatal_filter_nil p.slug ps, List.append_nil]
    · simp only [managerLoad, if_neg Bool.false_ne_true]
      exact List.mem_append_left _ (loadPhase_telemetry_mem ps p err hp he)

/-- Witness for C6 (the spec's scenario): the DNS plugin's load raises
while the other four succeed; all five get a load attempt, exactly one
fatal-error issue references "dns", and the exception reaches
telemetry. -/
theorem c6_load_isolation_witness :
    (managerLoad false (allPlugins okPlugin loadFailPlugin okPlugin okPlugin
        okPlugin)).load_attempts
      = ["cli", "dns", "audio", "observer", "multicast"] ∧
    (managerLoad false (allPlugins okPlugin loadFailPlugin okPlugin okPlugin
        okPlugin)).issues.filter
        (fun i => i.issue_type == "fatal_error" && i.reference == "dns")
      = [fatalLoadIssue "dns"] ∧
    "dns load failed" ∈ (managerLoad false (allPlugins okPlugin loadFailPlugin
        okPlugin okPlugin okPlugin)).telemetry := by
  have h := c6_load_isolation false
    (allPlugins okPlugin loadFailPlugin okPlugin okPlugin okPlugin) (by decide)
    { loadFailPlugin with slug := "dns" } (by decide) "dns load failed"
    (by decide)
  exact ⟨h.1, h.2.1, h.2.2⟩

/-! ## C7: supervisor version gate -/

/-- **C7.** If the supervisor itself needs an update,
`PluginManager.load()` calls `update()` on no plugin — whatever the
plugins' own needs-update flags say; when the supervisor is up to date
it calls `update()` on exactly the plugins whose needs-update flag is
set, in set order. -/
theorem c7_supervisor_update_gate (ps : List Plugin) :
    (managerLoad true ps).update_calls = [] ∧
    (managerLoad false ps).update_calls
      = (ps.filter (fun p => p.need_update)).map Plugin.slug := by
  refine ⟨rfl, ?_⟩
  simpa [managerLoad] using updatePhase_calls ps

/-! ## C9: shutdown -/

/-- **C9.** `PluginManager.shutdown()` attempts `stop()` sequentially
on exactly {cli, dns, audio, multicast} in set order — never on the
observer plugin; it creates no issue and swallows every stop exception
(forwarding it to telemetry), so all non-observer plugins receive a
stop attempt regardless of earlier failures. -/
theorem c9_shutdown_isolation (cli dns audio observer multicast : Plugin) :
    (managerShutdown (allPlugins cli dns audio observer multicast)).stop_attempts
      = ["cli", "dns", "audio", "multicast"] ∧
    (managerShutdown (allPlugins cli dns audio observer multicast)).issues
      = [] ∧
    (∀ p ∈ allPlugins cli dns audio observer multicast, p.slug ≠ "observer" →
      ∀ err, p.stop_error = some err →
        err ∈ (managerShutdown
          (allPlugins cli dns audio observer multicast)).telemetry) := by
  have hf : (allPlugins cli dns audio observer multicast).filter
      (fun p => p.slug ≠ "observer")
      = [{ cli with slug := "cli" }, { dns with slug := "dns" },
         { audio with slug := "audio" }, { multicast with slug := "multicast" }] :=
    rfl
  refine ⟨?_, rfl, ?_⟩
  · show (stopPhase ((allPlugins cli dns audio observer multicast).filter
        (fun p => p.slug ≠ "observer"))).1 = _
    rw [hf, stopPhase_attempts]
    rfl
  · intro p hp hobs err herr
    have hmem : p ∈ (allPlugins cli dns audio observer multicast).filter
        (fun p => p.slug ≠ "observer") :=
      List.mem_filter.mpr ⟨hp, by simpa using hobs⟩
    show err ∈ (stopPhase ((allPlugins cli dns audio observer multicast).filter
        (fun p => p.slug ≠ "observer"))).2
    exact stopPhase_telemetry_mem _ p err hmem herr

/-- Witness for C9: the DNS plugin's stop raises; the four non-observer
plugins are still stopped in order, no issue is created, and the
exception reaches telemetry. -/
theorem c9_shutdown_isolation_witness :
    (managerShutdown (allPlugins okPlugin stopFailPlugin okPlugin okPlugin
        okPlugin)).stop_attempts = ["cli", "dns", "audio", "multicast"] ∧
    (managerShutdown (allPlugins okPlugin stopFailPlugin okPlugin okPlugin
        okPlugin)).issues = [] ∧
    "dns stop failed" ∈ (managerShutdown (allPlugins okPlugin stopFailPlugin
        okPlugin okPlugin okPlugin)).telemetry := by
  have h := c9_shutdown_isolation okPlugin stopFailPlugin okPlugin okPlugin
    okPlugin
  exact ⟨h.1, h.2.1, h.2.2 { stopFailPlugin with slug := "dns" } (by decide)
    (by decide) "dns stop failed" (by decide)⟩
